import Mathlib

/-!
Verification development for the chunk-extraction core of a code-RAG
indexer (src/chunker.py, src/uitils/analysis.py, src/embedder.py).

The Python source is shallowly embedded: the `ast` subtree of one file is
a `Stmt`/`Block` tree carrying only the node shapes the extractor
dispatches on (imports, class definitions, sync and async function
definitions, and all other statements with their directly contained call
expressions and nested blocks), and the `ast.NodeVisitor` subclass
`PythonChunkExtractor` becomes a structurally recursive fold over that
tree with explicit state passing.  Python dicts are association lists
with in-place overwrite (CPython dicts keep the original key position on
update), Python sets are membership lists, and the one piece of mutable
aliasing in the source — `_create_chunk` stores `self.imported_symbols`
without copying it, so every chunk of a file ends up holding the file's
final mapping — is modelled by an explicit end-of-file substitution pass
in `processFile`.
-/

/-- Association-list overwrite, modelling CPython `dict[k] = v`: an
existing key keeps its position and gets the new value, a fresh key is
appended at the end. -/
def dictInsert {α : Type} (k : String) (v : α) : List (String × α) → List (String × α)
  | [] => [(k, v)]
  | (k', v') :: rest => if k' = k then (k, v) :: rest else (k', v') :: dictInsert k v rest

/-- Association-list lookup, modelling `dict.get(k)` / `k in dict`. -/
def lookupStr {α : Type} : List (String × α) → String → Option α
  | [], _ => none
  | (k', v) :: rest, k => if k' = k then some v else lookupStr rest k

/-- Membership-based insertion, modelling `set.add` (iteration order of a
CPython set is unspecified; no claim depends on the order of this list,
only on membership). -/
def setAdd (l : List String) (x : String) : List String :=
  if l.contains x then l else l ++ [x]

/-- Substring test on character lists, modelling Python `needle in hay`. -/
def listContainsSub (n : List Char) : List Char → Bool
  | [] => n.isEmpty
  | c :: t => List.isPrefixOf n (c :: t) || listContainsSub n t

/-- Substring test on strings, modelling Python `needle in hay`. -/
def strContains (needle hay : String) : Bool :=
  listContainsSub needle.toList hay.toList

/-- ASCII lower-casing, modelling `str.lower()`. -/
def pyLower (s : String) : String := s.map Char.toLower

/-- ASCII upper-casing, modelling `str.upper()`. -/
def pyUpper (s : String) : String := s.map Char.toUpper

/-- Whitespace stripping at both ends, modelling `str.strip()`. -/
def pyStrip (s : String) : String :=
  String.mk (((s.toList.dropWhile Char.isWhitespace).reverse.dropWhile Char.isWhitespace).reverse)

/-- Python truthiness fallback `l or d` for lists. -/
def pyOrList {α : Type} (l d : List α) : List α := if l.isEmpty then d else l

/-- Python truthiness fallback `o or d` for an optional string. -/
def pyOrStr (o : Option String) (d : String) : String :=
  match o with
  | some s => if s.isEmpty then d else s
  | none => d

/-- Line span of an `ast` node: `node.lineno` and `node.end_lineno`,
both 1-based and inclusive. -/
structure Span where
  lineno : Nat
  end_lineno : Nat
deriving DecidableEq, Repr

/-- Shape of the `func` expression of an `ast.Call`, the only thing
`_extract_calls` dispatches on: a bare identifier (`ast.Name`), a dotted
member access (`ast.Attribute`, carried as its `ast.unparse` text), or
any other callable expression. -/
inductive Callee where
  | name : String → Callee
  | attr : String → Callee
  | other : Callee
deriving DecidableEq, Repr

/-- Statement kinds `detect_control_flow` distinguishes among the
statements the extractor does not dispatch on. -/
inductive SimpleKind where
  | ifKind : SimpleKind
  | forKind : SimpleKind
  | whileKind : SimpleKind
  | tryKind : SimpleKind
  | exprKind : SimpleKind
deriving DecidableEq, Repr

mutual
/-- Embedded Python statement.  `importStmt` is `import m1, m2`;
`importFrom` is `from module import name [as alias]` (module is `none`
for a relative `from . import x`); `simple` is every other statement,
carrying its kind, the string constant it evaluates to if it is a bare
string-expression statement (the docstring candidate), the call sites
directly contained in its own expressions, and the statements of its
nested blocks (`if`/`for`/`while`/`try` bodies and the like). -/
inductive Stmt where
  | importStmt : Span → List String → Stmt
  | importFrom : Span → Option String → List (String × Option String) → Stmt
  | classDef : Span → String → Block → Stmt
  | functionDef : Span → String → Block → Stmt
  | asyncFunctionDef : Span → String → Block → Stmt
  | simple : Span → SimpleKind → Option String → List Callee → Block → Stmt

/-- A statement list (a node body). -/
inductive Block where
  | nil : Block
  | cons : Stmt → Block → Block
end

/-- Build a `Block` from a list of statements. -/
def blk (l : List Stmt) : Block := l.foldr Block.cons Block.nil

/-- Span projection of a statement. -/
def Stmt.span : Stmt → Span
  | .importStmt sp _ => sp
  | .importFrom sp _ _ => sp
  | .classDef sp _ _ => sp
  | .functionDef sp _ _ => sp
  | .asyncFunctionDef sp _ _ => sp
  | .simple sp _ _ _ _ => sp

mutual
/-- Call sites in a node's whole subtree, modelling the `ast.walk(node)`
loop of `_extract_calls` (walk order is abstracted to depth-first; every
claim about calls is membership-based). -/
def walkCallsStmt : Stmt → List Callee
  | .importStmt _ _ => []
  | .importFrom _ _ _ => []
  | .classDef _ _ b => walkCallsBlock b
  | .functionDef _ _ b => walkCallsBlock b
  | .asyncFunctionDef _ _ b => walkCallsBlock b
  | .simple _ _ _ cs b => cs ++ walkCallsBlock b

/-- Call sites of a block's subtrees. -/
def walkCallsBlock : Block → List Callee
  | .nil => []
  | .cons s r => walkCallsStmt s ++ walkCallsBlock r
end

/-- Control-flow flags contributed by one statement kind, from
`detect_control_flow` in uitils/analysis.py. -/
def kindFlags : SimpleKind → List String
  | .ifKind => ["conditional_logic"]
  | .forKind => ["looping"]
  | .whileKind => ["looping"]
  | .tryKind => ["exception_handling"]
  | .exprKind => []

mutual
/-- Control-flow flags in a node's subtree, walk phase. -/
def flowStmt : Stmt → List String
  | .importStmt _ _ => []
  | .importFrom _ _ _ => []
  | .classDef _ _ b => flowBlock b
  | .functionDef _ _ b => flowBlock b
  | .asyncFunctionDef _ _ b => flowBlock b
  | .simple _ k _ _ b => kindFlags k ++ flowBlock b

/-- Control-flow flags of a block, walk phase. -/
def flowBlock : Block → List String
  | .nil => []
  | .cons s r => flowStmt s ++ flowBlock r
end

/-- Embeds `detect_control_flow` (uitils/analysis.py): presence, not
count, of try / if / for-while constructs in the subtree, returned as a
duplicate-free list (the source returns `list` of a `set`). -/
def detect_control_flow (s : Stmt) : List String :=
  (flowStmt s).foldl setAdd []

/-- First statement of a block if it is a bare string-expression
statement, the docstring case of `ast.get_docstring`. -/
def docOfBlock : Block → Option String
  | .cons (.simple _ _ (some d) _ _) _ => some d
  | _ => none

/-- Embeds `extract_docstring` (uitils/analysis.py), i.e.
`ast.get_docstring` on a class or function node. -/
def extract_docstring (s : Stmt) : Option String :=
  match s with
  | .classDef _ _ b => docOfBlock b
  | .functionDef _ _ b => docOfBlock b
  | .asyncFunctionDef _ _ b => docOfBlock b
  | _ => none

/-- Embeds `infer_intent` (uitils/analysis.py): keyword heuristics over
the lower-cased name and the imported module names. -/
def infer_intent (name : String) (imported_modules : List String) : List String :=
  let n := pyLower name
  (if ["auth", "token", "jwt", "verify", "validate"].any (fun k => strContains k n)
    then ["authentication"] else []) ++
  (if ["fetch", "get", "read", "load"].any (fun k => strContains k n)
    then ["data_access"] else []) ++
  (if ["write", "save", "upload", "put"].any (fun k => strContains k n)
    then ["data_persistence"] else []) ++
  (if imported_modules.any (fun m => strContains "boto3" m || strContains "s3" m)
    then ["cloud_storage"] else []) ++
  (if imported_modules.any (fun m => strContains "requests" m || strContains "http" m)
    then ["networking"] else [])

/-- Embeds `infer_file_role` (uitils/analysis.py): first matching
substring of the lower-cased path wins. -/
def infer_file_role (file_path : String) : String :=
  let p := pyLower file_path
  if strContains "auth" p then "authentication / authorization logic"
  else if strContains "middleware" p then "request / response middleware"
  else if strContains "etl" p || strContains "pipeline" p then "data pipeline orchestration"
  else if strContains "utils" p then "shared utility functions"
  else if strContains "service" p then "business logic service layer"
  else "general application logic"

/-- Raw call reference exactly as `_extract_calls` builds it: the dict
`{"name": ..., "resolved_via": ..., "module": ...}`. -/
structure CallRef where
  name : String
  resolved_via : String
  module : Option String
deriving DecidableEq, Repr

/-- Reference produced for one call site, the per-`ast.Call` body of
`_extract_calls`: a bare identifier is tagged `import` when it is a key
of the current `imported_symbols` mapping (with `dict.get` as module)
and `local_or_unknown` otherwise; a member access keeps its full dotted
path and is tagged `attribute`; any other callable shape produces
nothing. -/
def refOfCallee (syms : List (String × String)) : Callee → Option CallRef
  | .name id =>
      some { name := id,
             resolved_via := if (lookupStr syms id).isSome then "import" else "local_or_unknown",
             module := lookupStr syms id }
  | .attr dotted => some { name := dotted, resolved_via := "attribute", module := none }
  | .other => none

/-- Embeds `PythonChunkExtractor._extract_calls` on a node subtree with
the current import-symbol mapping. -/
def extractCalls (syms : List (String × String)) (s : Stmt) : List CallRef :=
  (walkCallsStmt s).filterMap (refOfCallee syms)

/-- The `imports` sub-dict of a chunk: `{"modules": list(...), "symbols": ...}`. -/
structure ImportCtx where
  modules : List String
  symbols : List (String × String)
deriving DecidableEq, Repr

/-- Chunk record, the dict literal appended by
`PythonChunkExtractor._create_chunk` (the Python key `class` is spelled
`class_` here). -/
structure Chunk where
  type : String
  name : String
  file_path : String
  start_line : Nat
  end_line : Nat
  file_role : String
  class_ : Option String
  intent_tags : List String
  control_flow : List String
  docstring : Option String
  imports : ImportCtx
  calls : List CallRef
  code : String
  retrieval_text : String
deriving DecidableEq, Repr

instance : Inhabited Chunk :=
  ⟨{ type := "", name := "", file_path := "", start_line := 0, end_line := 0,
     file_role := "", class_ := none, intent_tags := [], control_flow := [],
     docstring := none, imports := { modules := [], symbols := [] }, calls := [],
     code := "", retrieval_text := "" }⟩

/-- Keys of the chunk dict literal built in `_create_chunk`, in source
order.  This is the complete field set of a serialized chunk record. -/
def chunkDictKeys : List String :=
  ["type", "name", "file_path", "start_line", "end_line", "file_role", "class",
   "intent_tags", "control_flow", "docstring", "imports", "calls", "code",
   "retrieval_text"]

/-- Visitor state of one `PythonChunkExtractor` instance. -/
structure VState where
  file_path : String
  source_lines : List String
  chunks : List Chunk
  imported_modules : List String
  imported_symbols : List (String × String)
  current_class : Option String
  current_function : Option String
  file_role : String

/-- Embeds `PythonChunkExtractor.__init__`. -/
def initState (file_path : String) (source_lines : List String) : VState :=
  { file_path := file_path, source_lines := source_lines, chunks := [],
    imported_modules := [], imported_symbols := [], current_class := none,
    current_function := none, file_role := infer_file_role file_path }

/-- Embeds `_build_retrieval_text`: the f-string template, rendered with
the state current at chunk creation and then stripped.  List-valued
fields go through Python `or` fallbacks exactly as in the source. -/
def buildRetrievalText (st : VState) (chunk_type name : String)
    (docstring : Option String) (intent_tags control_flow : List String)
    (calls : Option (List CallRef)) : String :=
  let call_names := (calls.getD []).map CallRef.name
  pyStrip ("\n" ++ pyUpper chunk_type ++ " NAME:\n" ++ name ++
    "\n\nFILE ROLE:\n" ++ st.file_role ++
    "\n\nLOCATION:\n" ++ st.file_path ++
    "\n\nCLASS CONTEXT:\n" ++ pyOrStr st.current_class "N/A" ++
    "\n\nINTENT TAGS:\n" ++ String.intercalate ", " (pyOrList intent_tags ["general_logic"]) ++
    "\n\nCONTROL FLOW:\n" ++ String.intercalate ", " (pyOrList control_flow ["linear_execution"]) ++
    "\n\nDOCSTRING SUMMARY:\n" ++ pyOrStr docstring "No docstring provided." ++
    "\n\nIMPORT CONTEXT:\nModules → " ++ String.intercalate ", " st.imported_modules ++
    "\nImported Symbols → " ++ String.intercalate ", " (st.imported_symbols.map Prod.fst) ++
    "\n\nFUNCTION CALLS:\n" ++
    (if call_names.isEmpty then "No explicit function calls." else String.intercalate ", " call_names) ++
    "\n\nDESCRIPTION:\nThis " ++ chunk_type ++ " implements logic related to " ++ name ++
    " and is part of the\n" ++ st.file_role ++
    ". It may interact with other components via imported\nmodules and function calls listed above.\n")

/-- The chunk record assembled by `PythonChunkExtractor._create_chunk`.
`code` is `"".join(self.source_lines[node.lineno - 1 : node.end_lineno])`;
`imports.modules` is the `list(...)` copy of the module set taken now,
while `imports.symbols` is left empty here because the source stores the
live `self.imported_symbols` dict without copying — `processFile` below
substitutes the file's final mapping into every chunk, which is exactly
what that shared mutable reference makes observable after the run. -/
def chunkOf (st : VState) (node : Stmt) (chunk_type name : String)
    (calls : Option (List CallRef)) (docstring : Option String)
    (control_flow intent_tags : List String) : Chunk :=
  let start := node.span.lineno - 1
  let stop := node.span.end_lineno
  let code := String.join (List.take (stop - start) (List.drop start st.source_lines))
  let rt := buildRetrievalText st chunk_type name docstring intent_tags control_flow calls
  { type := chunk_type, name := name, file_path := st.file_path,
    start_line := start + 1, end_line := stop,
    file_role := st.file_role, class_ := st.current_class,
    intent_tags := intent_tags, control_flow := control_flow,
    docstring := docstring,
    imports := { modules := st.imported_modules, symbols := [] },
    calls := calls.getD [], code := code, retrieval_text := rt }

/-- Embeds `PythonChunkExtractor._create_chunk`: append the assembled
record to `self.chunks`. -/
def createChunk (st : VState) (node : Stmt) (chunk_type name : String)
    (calls : Option (List CallRef)) (docstring : Option String)
    (control_flow intent_tags : List String) : VState :=
  { st with chunks := st.chunks ++
      [chunkOf st node chunk_type name calls docstring control_flow intent_tags] }

mutual
/-- Embeds `ast.NodeVisitor.visit` dispatch for `PythonChunkExtractor`:
`visit_Import` and `visit_ImportFrom` update the accumulators,
`visit_ClassDef` and `visit_FunctionDef` create a chunk and recurse,
and every other statement (async function definitions included, since no
`visit_AsyncFunctionDef` is defined) falls back to `generic_visit`,
which only recurses into nested statements. -/
def visitStmt (st : VState) : Stmt → VState
  | .importStmt _ mods =>
      { st with imported_modules := mods.foldl setAdd st.imported_modules }
  | .importFrom _ mod names =>
      match mod with
      | some m =>
          { st with imported_symbols :=
              names.foldl (fun acc nm => dictInsert (nm.2.getD nm.1) m acc) st.imported_symbols }
      | none => st
  | .classDef sp nm b =>
      let st1 := { st with current_class := some nm }
      let st2 := createChunk st1 (Stmt.classDef sp nm b) "class" nm none
        (extract_docstring (Stmt.classDef sp nm b))
        (detect_control_flow (Stmt.classDef sp nm b))
        (infer_intent nm st1.imported_modules)
      let st3 := visitBlock st2 b
      { st3 with current_class := st.current_class }
  | .functionDef sp nm b =>
      let st1 := { st with current_function := some nm }
      let st2 := createChunk st1 (Stmt.functionDef sp nm b)
        (match st1.current_class with | some _ => "method" | none => "function") nm
        (some (extractCalls st1.imported_symbols (Stmt.functionDef sp nm b)))
        (extract_docstring (Stmt.functionDef sp nm b))
        (detect_control_flow (Stmt.functionDef sp nm b))
        (infer_intent nm st1.imported_modules)
      let st3 := visitBlock st2 b
      { st3 with current_function := st.current_function }
  | .asyncFunctionDef _ _ b => visitBlock st b
  | .simple _ _ _ _ b => visitBlock st b

/-- Visit every statement of a block in order. -/
def visitBlock (st : VState) : Block → VState
  | .nil => st
  | .cons s r => visitBlock (visitStmt st s) r
end

/-- Runs one `PythonChunkExtractor` over a parsed file body and returns
`extractor.chunks`.  The final `map` realizes the live-dict aliasing of
`_create_chunk`: every chunk of the file holds the very
`self.imported_symbols` object, so after the run each one contains the
file's final import-symbol mapping, however early the chunk was
created. -/
def processFile (file_path : String) (source_lines : List String) (body : Block) : List Chunk :=
  let st := visitBlock (initState file_path source_lines) body
  st.chunks.map (fun c => { c with imports := { c.imports with symbols := st.imported_symbols } })

/-- One candidate file of the repository walk: its path, its path
components (for the directory-exclusion test), and `some (source_lines,
body)` when `read_text` + `ast.parse` succeed, `none` when either
raises. -/
structure PyFile where
  path : String
  parts : List String
  parsed : Option (List String × Block)

/-- Directory-exclusion test of `extract_chunks_from_repo`:
`"venv" in py_file.parts or "__pycache__" in py_file.parts`. -/
def excludedFile (f : PyFile) : Bool :=
  f.parts.contains "venv" || f.parts.contains "__pycache__"

/-- Embeds `extract_chunks_from_repo` (src/chunker.py): walk the files
in order, skip excluded directories, silently `continue` on a read or
parse failure, and extend one flat chunk list with each surviving
file's chunks.  Nothing runs after this loop: the returned list is the
final corpus. -/
def extract_chunks_from_repo (files : List PyFile) : List Chunk :=
  files.foldl (fun acc f =>
    if excludedFile f then acc
    else match f.parsed with
      | none => acc
      | some (lines, body) => acc ++ processFile f.path lines body) []

/-- One row of a `CodeEmbedder.search` result list (src/embedder.py). -/
structure SearchResult where
  score : Float
  file_path : String
  start_line : Nat
  end_line : Nat
  retrieval_text : String
  name : String
  intent_tags : List String

/-- Stand-in for the loaded sentence-transformer plus FAISS index, the
external similarity backend the spec declares opaque: given a query and
`k` it returns ranked `(position, score)` pairs over the stored chunk
list. -/
structure FaissModel where
  rank : String → Nat → List (Nat × Float)

/-- State of a `CodeEmbedder` as far as `search` reads it: the optional
index (`None` until built or loaded) and the stored chunk metadata. -/
structure CodeEmbedder where
  index : Option FaissModel
  chunks : List Chunk

/-- The `id_map` built by `CodeEmbedder.build_index`:
`{str(i): i for i in range(len(chunks))}`. -/
def buildIdMap (chunks : List Chunk) : List (String × Nat) :=
  (List.range chunks.length).map (fun i => (toString i, i))

/-- Embeds `CodeEmbedder.search`: raises `RuntimeError("Index not
built")` when `self.index is None`, otherwise maps the backend's ranked
positions over the stored chunks. -/
def CodeEmbedder.search (e : CodeEmbedder) (query : String) (k : Nat) :
    Except String (List SearchResult) :=
  match e.index with
  | none => Except.error "Index not built"
  | some m =>
      Except.ok ((m.rank query k).filterMap (fun p =>
        (e.chunks.get? p.1).map (fun c =>
          { score := p.2, file_path := c.file_path, start_line := c.start_line,
            end_line := c.end_line, retrieval_text := c.retrieval_text,
            name := c.name, intent_tags := c.intent_tags })))

/-- Spec-side formalization of "the verbatim text of the source file's
lines `a` through `b`, 1-based inclusive" (spec §3/§8), used to compare
against the `code` field the source computes. -/
def linesRange (lines : List String) (a b : Nat) : String :=
  String.join (List.take (b + 1 - a) (List.drop (a - 1) lines))

/-- Spec-side definition, following the spec's words in §7: the number
of files of the run that were skipped for a read or parse failure (the
files the spec says must be counted and reported with reasons). -/
def specSkippedFileCount (files : List PyFile) : Nat :=
  (files.filter (fun f => !excludedFile f && f.parsed.isNone)).length

/-- Well-formedness of an `ast` node span against the file's line count:
`1 ≤ lineno ≤ end_lineno ≤ number of lines`, which is what CPython's
parser guarantees for every node of a successfully parsed file. -/
def spanOK (len : Nat) (sp : Span) : Bool :=
  decide (1 ≤ sp.lineno) && decide (sp.lineno ≤ sp.end_lineno) && decide (sp.end_lineno ≤ len)

mutual
/-- Every span in the statement's subtree is well-formed. -/
def wfStmt (len : Nat) : Stmt → Bool
  | .importStmt sp _ => spanOK len sp
  | .importFrom sp _ _ => spanOK len sp
  | .classDef sp _ b => spanOK len sp && wfBlock len b
  | .functionDef sp _ b => spanOK len sp && wfBlock len b
  | .asyncFunctionDef sp _ b => spanOK len sp && wfBlock len b
  | .simple sp _ _ _ b => spanOK len sp && wfBlock len b

/-- Every span in the block is well-formed. -/
def wfBlock (len : Nat) : Block → Bool
  | .nil => true
  | .cons s r => wfStmt len s && wfBlock len r
end

mutual
/-- Number of chunk-producing definitions in a statement's subtree:
class definitions and plain `def`s count one each plus their bodies,
`async def` contributes only its body, everything else only its nested
blocks. -/
def countDefsStmt : Stmt → Nat
  | .importStmt _ _ => 0
  | .importFrom _ _ _ => 0
  | .classDef _ _ b => 1 + countDefsBlock b
  | .functionDef _ _ b => 1 + countDefsBlock b
  | .asyncFunctionDef _ _ b => countDefsBlock b
  | .simple _ _ _ _ b => countDefsBlock b

/-- Number of chunk-producing definitions in a block. -/
def countDefsBlock : Block → Nat
  | .nil => 0
  | .cons s r => countDefsStmt s + countDefsBlock r
end

/-- Source lines of the spec's end-to-end example file: `class A:` with
method `m` whose body calls `helper()`, plus a top-level `helper`. -/
def linesE : List String :=
  ["class A:\n", "    def m(self):\n", "        helper()\n", "def helper():\n", "    pass\n"]

/-- Parsed body of the end-to-end example file. -/
def bodyE : Block := blk
  [Stmt.classDef ⟨1, 3⟩ "A" (blk
    [Stmt.functionDef ⟨2, 3⟩ "m" (blk
      [Stmt.simple ⟨3, 3⟩ SimpleKind.exprKind none [Callee.name "helper"] (blk [])])]),
   Stmt.functionDef ⟨4, 5⟩ "helper" (blk
    [Stmt.simple ⟨5, 5⟩ SimpleKind.exprKind none [] (blk [])])]

/-- The end-to-end example as a one-file repository. -/
def repoE : List PyFile := [{ path := "app.py", parts := ["app.py"], parsed := some (linesE, bodyE) }]

/-- Repository with a single file whose one function calls a name that
no chunk of the run defines — a SymbolIndex miss in the spec's terms. -/
def repoU : List PyFile :=
  [{ path := "u.py", parts := ["u.py"],
     parsed := some (["def m():\n", "    undefinedfn()\n"], blk
       [Stmt.functionDef ⟨1, 2⟩ "m" (blk
         [Stmt.simple ⟨2, 2⟩ SimpleKind.exprKind none [Callee.name "undefinedfn"] (blk [])])]) }]

/-- Source lines of a file whose imports all appear after its only
function definition. -/
def linesLate : List String :=
  ["def f():\n", "    pass\n", "import json\n", "from os import path\n"]

/-- Parsed body of the late-import file: `def f(): pass` on lines 1-2,
then `import json` on line 3 and `from os import path` on line 4, both
processed after the chunk for `f` has been created. -/
def bodyLate : Block := blk
  [Stmt.functionDef ⟨1, 2⟩ "f" (blk
    [Stmt.simple ⟨2, 2⟩ SimpleKind.exprKind none [] (blk [])]),
   Stmt.importStmt ⟨3, 3⟩ ["json"],
   Stmt.importFrom ⟨4, 4⟩ (some "os") [("path", none)]]

/-- Class definition whose body contains a class-level call expression
(`class C:` with `helper()` in its body and no methods). -/
def nodeCls : Stmt :=
  Stmt.classDef ⟨1, 2⟩ "C" (blk
    [Stmt.simple ⟨2, 2⟩ SimpleKind.exprKind none [Callee.name "helper"] (blk [])])

/-- Source lines of the class-level-call file. -/
def linesCls : List String := ["class C:\n", "    helper()\n"]

/-- Body of the class-level-call file. -/
def bodyCls : Block := blk [nodeCls]

/-- A file that reads and parses fine. -/
def goodFile : PyFile :=
  { path := "g.py", parts := ["g.py"],
    parsed := some (["def g():\n", "    pass\n"], blk
      [Stmt.functionDef ⟨1, 2⟩ "g" (blk
        [Stmt.simple ⟨2, 2⟩ SimpleKind.exprKind none [] (blk [])])]) }

/-- A file whose read or parse raises, so `extract_chunks_from_repo`
hits its `except Exception: continue`. -/
def badFile : PyFile := { path := "bad.py", parts := ["bad.py"], parsed := none }

/-- Import-symbol mapping after `from os import path`. -/
def syms0 : List (String × String) := [("path", "os")]

/-- A statement with three call sites: imported name, unknown name and
an attribute call. -/
def stmt0 : Stmt :=
  Stmt.simple ⟨1, 1⟩ SimpleKind.exprKind none
    [Callee.name "path", Callee.name "g", Callee.attr "obj.run"] (blk [])

/-- An embedder on which `build_index` has never run and no persisted
index was found: `self.index is None`. -/
def emb0 : CodeEmbedder := { index := none, chunks := [] }

/-- Properties every chunk created during a file's walk has, stated
against the file-constant parts of the visitor state: it carries the
file's path and role, its `imports.symbols` slot is the shared live
mapping (the pre-substitution empty marker), a class-type chunk has an
empty `calls` list because `visit_ClassDef` passes no `calls` argument,
and its `code` is exactly the 1-based inclusive line slice
`[start_line, end_line]` of the file. -/
def NewChunkOK (fp fr : String) (L : List String) (c : Chunk) : Prop :=
  c.file_path = fp ∧ c.file_role = fr ∧ c.imports.symbols = [] ∧
  (c.type = "class" → c.calls = []) ∧
  c.code = linesRange L c.start_line c.end_line

/-- Every chunk `_create_chunk` assembles satisfies `NewChunkOK` for its
creating state; a class chunk is only ever created with `calls = None`. -/
theorem chunkOf_newOK (st : VState) (node : Stmt) (ct nm : String)
    (cs : Option (List CallRef)) (ds : Option String) (cf it : List String)
    (hclass : ct = "class" → cs = none) :
    NewChunkOK st.file_path st.file_role st.source_lines (chunkOf st node ct nm cs ds cf it) := by
  refine ⟨rfl, rfl, rfl, ?_, ?_⟩
  · intro h
    rw [show cs = none from hclass h]
    rfl
  · have h1 : node.span.end_lineno + 1 - (node.span.lineno - 1 + 1) =
        node.span.end_lineno - (node.span.lineno - 1) := by omega
    have h2 : node.span.lineno - 1 + 1 - 1 = node.span.lineno - 1 := by omega
    simp [chunkOf, linesRange, h1, h2]

mutual
/-- The visitor never touches `self.source_lines` (statement case). -/
theorem visitStmt_source_lines (s : Stmt) : ∀ st : VState,
    (visitStmt st s).source_lines = st.source_lines := by
  intro st
  cases s with
  | importStmt sp mods => simp [visitStmt]
  | importFrom sp mod names => cases mod <;> simp [visitStmt]
  | classDef sp nm b => simp only [visitStmt]; rw [visitBlock_source_lines b]; rfl
  | functionDef sp nm b => simp only [visitStmt]; rw [visitBlock_source_lines b]; rfl
  | asyncFunctionDef sp nm b => simp only [visitStmt]; rw [visitBlock_source_lines b]
  | simple sp k d cs b => simp only [visitStmt]; rw [visitBlock_source_lines b]

/-- The visitor never touches `self.source_lines` (block case). -/
theorem visitBlock_source_lines (b : Block) : ∀ st : VState,
    (visitBlock st b).source_lines = st.source_lines := by
  intro st
  cases b with
  | nil => rfl
  | cons s r =>
      simp only [visitBlock]
      rw [visitBlock_source_lines r, visitStmt_source_lines s]
end

mutual
/-- The visitor never touches `self.file_path` (statement case). -/
theorem visitStmt_file_path (s : Stmt) : ∀ st : VState,
    (visitStmt st s).file_path = st.file_path := by
  intro st
  cases s with
  | importStmt sp mods => simp [visitStmt]
  | importFrom sp mod names => cases mod <;> simp [visitStmt]
  | classDef sp nm b => simp only [visitStmt]; rw [visitBlock_file_path b]; rfl
  | functionDef sp nm b => simp only [visitStmt]; rw [visitBlock_file_path b]; rfl
  | asyncFunctionDef sp nm b => simp only [visitStmt]; rw [visitBlock_file_path b]
  | simple sp k d cs b => simp only [visitStmt]; rw [visitBlock_file_path b]

/-- The visitor never touches `self.file_path` (block case). -/
theorem visitBlock_file_path (b : Block) : ∀ st : VState,
    (visitBlock st b).file_path = st.file_path := by
  intro st
  cases b with
  | nil => rfl
  | cons s r =>
      simp only [visitBlock]
      rw [visitBlock_file_path r, visitStmt_file_path s]
end

mutual
/-- The visitor never touches `self.file_role` (statement case). -/
theorem visitStmt_file_role (s : Stmt) : ∀ st : VState,
    (visitStmt st s).file_role = st.file_role := by
  intro st
  cases s with
  | importStmt sp mods => simp [visitStmt]
  | importFrom sp mod names => cases mod <;> simp [visitStmt]
  | classDef sp nm b => simp only [visitStmt]; rw [visitBlock_file_role b]; rfl
  | functionDef sp nm b => simp only [visitStmt]; rw [visitBlock_file_role b]; rfl
  | asyncFunctionDef sp nm b => simp only [visitStmt]; rw [visitBlock_file_role b]
  | simple sp k d cs b => simp only [visitStmt]; rw [visitBlock_file_role b]

/-- The visitor never touches `self.file_role` (block case). -/
theorem visitBlock_file_role (b : Block) : ∀ st : VState,
    (visitBlock st b).file_role = st.file_role := by
  intro st
  cases b with
  | nil => rfl
  | cons s r =>
      simp only [visitBlock]
      rw [visitBlock_file_role r, visitStmt_file_role s]
end

mutual
/-- Visiting a statement appends exactly one chunk per class definition
and per plain function definition in its subtree. -/
theorem visitStmt_chunks_len (s : Stmt) : ∀ st : VState,
    (visitStmt st s).chunks.length = st.chunks.length + countDefsStmt s := by
  intro st
  cases s with
  | importStmt sp mods => simp [visitStmt, countDefsStmt]
  | importFrom sp mod names => cases mod <;> simp [visitStmt, countDefsStmt]
  | classDef sp nm b =>
      simp only [visitStmt]
      rw [show ∀ st2 : VState,
        ({ st2 with current_class := st.current_class } : VState).chunks = st2.chunks
        from fun _ => rfl]
      rw [visitBlock_chunks_len b]
      simp [createChunk, countDefsStmt]
      omega
  | functionDef sp nm b =>
      simp only [visitStmt]
      rw [show ∀ st2 : VState,
        ({ st2 with current_function := st.current_function } : VState).chunks = st2.chunks
        from fun _ => rfl]
      rw [visitBlock_chunks_len b]
      simp [createChunk, countDefsStmt]
      omega
  | asyncFunctionDef sp nm b =>
      simp only [visitStmt]
      rw [visitBlock_chunks_len b]
      simp [countDefsStmt]
  | simple sp k d cs b =>
      simp only [visitStmt]
      rw [visitBlock_chunks_len b]
      simp [countDefsStmt]

/-- Visiting a block appends exactly one chunk per class definition and
per plain function definition in its subtrees. -/
theorem visitBlock_chunks_len (b : Block) : ∀ st : VState,
    (visitBlock st b).chunks.length = st.chunks.length + countDefsBlock b := by
  intro st
  cases b with
  | nil => simp [visitBlock, countDefsBlock]
  | cons s r =>
      simp only [visitBlock]
      rw [visitBlock_chunks_len r, visitStmt_chunks_len s]
      simp [countDefsBlock]
      omega
end

mutual
/-- A chunk present after visiting a statement was either already there
or was created by `_create_chunk` during this subtree, in which case it
satisfies `NewChunkOK` (statement case). -/
theorem visitStmt_chunks_mem (s : Stmt) : ∀ (st : VState) (c : Chunk),
    c ∈ (visitStmt st s).chunks →
    c ∈ st.chunks ∨ NewChunkOK st.file_path st.file_role st.source_lines c := by
  intro st c hc
  cases s with
  | importStmt sp mods => exact Or.inl (by simpa [visitStmt] using hc)
  | importFrom sp mod names =>
      cases mod with
      | some m => exact Or.inl (by simpa [visitStmt] using hc)
      | none => exact Or.inl (by simpa [visitStmt] using hc)
  | classDef sp nm b =>
      simp only [visitStmt] at hc
      rcases visitBlock_chunks_mem b _ c hc with h | h
      · simp only [createChunk, List.mem_append, List.mem_singleton] at h
        rcases h with h1 | h2
        · exact Or.inl h1
        · rw [h2]
          exact Or.inr (chunkOf_newOK _ _ _ _ _ _ _ _ (fun _ => rfl))
      · exact Or.inr h
  | functionDef sp nm b =>
      simp only [visitStmt] at hc
      rcases visitBlock_chunks_mem b _ c hc with h | h
      · simp only [createChunk, List.mem_append, List.mem_singleton] at h
        rcases h with h1 | h2
        · exact Or.inl h1
        · rw [h2]
          refine Or.inr (chunkOf_newOK _ _ _ _ _ _ _ _ ?_)
          intro hcl
          exfalso
          rcases hcc : st.current_class with _ | cls <;> rw [hcc] at hcl <;> simp at hcl
      · exact Or.inr h
  | asyncFunctionDef sp nm b =>
      simp only [visitStmt] at hc
      exact visitBlock_chunks_mem b _ c hc
  | simple sp k d cs b =>
      simp only [visitStmt] at hc
      exact visitBlock_chunks_mem b _ c hc

/-- A chunk present after visiting a block was either already there or
satisfies `NewChunkOK` (block case). -/
theorem visitBlock_chunks_mem (b : Block) : ∀ (st : VState) (c : Chunk),
    c ∈ (visitBlock st b).chunks →
    c ∈ st.chunks ∨ NewChunkOK st.file_path st.file_role st.source_lines c := by
  intro st c hc
  cases b with
  | nil => exact Or.inl hc
  | cons s r =>
      simp only [visitBlock] at hc
      rcases visitBlock_chunks_mem r _ c hc with h | h
      · exact visitStmt_chunks_mem s st c h
      · rw [visitStmt_file_path s, visitStmt_file_role s, visitStmt_source_lines s] at h
        exact Or.inr h
end

mutual
/-- With well-formed node spans every chunk has an ordered line span
(statement case). -/
theorem visitStmt_chunks_ord (len : Nat) (s : Stmt) : ∀ st : VState,
    wfStmt len s = true →
    (∀ c ∈ st.chunks, c.start_line ≤ c.end_line) →
    ∀ c ∈ (visitStmt st s).chunks, c.start_line ≤ c.end_line := by
  intro st hw hinv c hc
  cases s with
  | importStmt sp mods => exact hinv c (by simpa [visitStmt] using hc)
  | importFrom sp mod names =>
      cases mod with
      | some m => exact hinv c (by simpa [visitStmt] using hc)
      | none => exact hinv c (by simpa [visitStmt] using hc)
  | classDef sp nm b =>
      simp only [wfStmt, Bool.and_eq_true] at hw
      simp only [visitStmt] at hc
      refine visitBlock_chunks_ord len b _ hw.2 ?_ c hc
      intro c' hc'
      simp only [createChunk, List.mem_append, List.mem_singleton] at hc'
      rcases hc' with h1 | h2
      · exact hinv c' h1
      · have hsp := hw.1
        simp only [spanOK, Bool.and_eq_true, decide_eq_true_eq] at hsp
        rw [h2]
        show sp.lineno - 1 + 1 ≤ sp.end_lineno
        omega
  | functionDef sp nm b =>
      simp only [wfStmt, Bool.and_eq_true] at hw
      simp only [visitStmt] at hc
      refine visitBlock_chunks_ord len b _ hw.2 ?_ c hc
      intro c' hc'
      simp only [createChunk, List.mem_append, List.mem_singleton] at hc'
      rcases hc' with h1 | h2
      · exact hinv c' h1
      · have hsp := hw.1
        simp only [spanOK, Bool.and_eq_true, decide_eq_true_eq] at hsp
        rw [h2]
        show sp.lineno - 1 + 1 ≤ sp.end_lineno
        omega
  | asyncFunctionDef sp nm b =>
      simp only [wfStmt, Bool.and_eq_true] at hw
      simp only [visitStmt] at hc
      exact visitBlock_chunks_ord len b _ hw.2 hinv c hc
  | simple sp k d cs b =>
      simp only [wfStmt, Bool.and_eq_true] at hw
      simp only [visitStmt] at hc
      exact visitBlock_chunks_ord len b _ hw.2 hinv c hc

/-- With well-formed node spans every chunk has an ordered line span
(block case). -/
theorem visitBlock_chunks_ord (len : Nat) (b : Block) : ∀ st : VState,
    wfBlock len b = true →
    (∀ c ∈ st.chunks, c.start_line ≤ c.end_line) →
    ∀ c ∈ (visitBlock st b).chunks, c.start_line ≤ c.end_line := by
  intro st hw hinv c hc
  cases b with
  | nil => exact hinv c hc
  | cons s r =>
      simp only [wfBlock, Bool.and_eq_true] at hw
      simp only [visitBlock] at hc
      exact visitBlock_chunks_ord len r _ hw.2
        (visitStmt_chunks_ord len s st hw.1 hinv) c hc
end

/-- Every chunk of `processFile` is the end-of-file symbol substitution
of a chunk accumulated by the visitor. -/
theorem processFile_mem (fp : String) (L : List String) (b : Block) (c : Chunk)
    (hc : c ∈ processFile fp L b) :
    ∃ c0, c0 ∈ (visitBlock (initState fp L) b).chunks ∧
      c = { c0 with imports := { c0.imports with
              symbols := (visitBlock (initState fp L) b).imported_symbols } } := by
  simp only [processFile, List.mem_map] at hc
  rcases hc with ⟨c0, h1, h2⟩
  exact ⟨c0, h1, h2.symm⟩

/-- C1, counterexample.  In a run whose only chunk is `m`, the bare-name
reference to `undefinedfn` — a name no chunk of the run defines, hence a
SymbolIndex miss with `resolution_kind = local_or_unknown` — is NOT
dropped from the chunk's `calls` field after the full extraction run: it
survives verbatim, so the claimed lookup-and-drop resolution step does
not happen. -/
theorem c1_counterexample :
    (extract_chunks_from_repo repoU).map Chunk.name = ["m"] ∧
    (extract_chunks_from_repo repoU).map Chunk.calls =
      [[{ name := "undefinedfn", resolved_via := "local_or_unknown", module := none }]] ∧
    (extract_chunks_from_repo repoU).map Chunk.calls ≠ [[]] := by
  refine ⟨rfl, rfl, ?_⟩
  decide

/-- C1, amended.  After the full extraction run no call resolution
occurs at all: on the spec's own end-to-end example (class `A` with
method `m` calling `helper()`, plus a top-level `helper`), the run
yields the three chunks, and `m`'s calls field still holds the raw
reference `{name: helper, resolved_via: local_or_unknown, module: None}`
— no SymbolIndex is built, no `target_chunk_id` is attached even though
`helper` is defined in the run, and nothing is dropped. -/
theorem c1_calls_retained_raw :
    (extract_chunks_from_repo repoE).map Chunk.name = ["A", "m", "helper"] ∧
    (extract_chunks_from_repo repoE).map Chunk.calls =
      [[], [{ name := "helper", resolved_via := "local_or_unknown", module := none }], []] :=
  ⟨rfl, rfl⟩

/-- C2, counterexample.  The chunk record built by `_create_chunk` has
no `id` key at all — `chunkDictKeys` is its complete key set — so no
chunk carries an id that could be a function of
`(file_path, symbol_name, start_line, end_line)`. -/
theorem c2_counterexample : ("id" ∈ chunkDictKeys) = False := by decide

/-- C2, amended.  Chunks carry no `id` field; the only identity a chunk
has downstream is positional: `build_index`'s `id_map` sends the decimal
string of each index of the chunk list to that index. -/
theorem c2_no_id_positional (cs : List Chunk) (i : Nat) (h : i < cs.length) :
    "id" ∉ chunkDictKeys ∧ (buildIdMap cs)[i]? = some (toString i, i) := by
  refine ⟨by decide, ?_⟩
  simp [buildIdMap, List.getElem?_range, h]

/-- C2, witness: the amended theorem applied to the chunk list of the
end-to-end example run at index 1. -/
theorem c2_witness :
    "id" ∉ chunkDictKeys ∧
    (buildIdMap (extract_chunks_from_repo repoE))[1]? = some (toString 1, 1) :=
  c2_no_id_positional (extract_chunks_from_repo repoE) 1 (by decide)

/-- C3, code bug, evaluated at the failing input.  In a file where both
its imports (`import json` on line 3, `from os import path` on line 4)
appear after its only definition `f` (lines 1-2), `f`'s finished chunk
has `imports.modules = []` — the module set was copied with `list(...)`
at creation — but `imports.symbols = [("path", "os")]`: `_create_chunk`
stores the live `self.imported_symbols` dict without copying, so the
from-import processed after the chunk's creation retroactively appears
in the chunk, contradicting the snapshot-copy claim for the symbols
half. -/
theorem c3_live_symbols_reference :
    (processFile "late.py" linesLate bodyLate).map
        (fun c => (c.end_line, c.imports.modules, c.imports.symbols)) =
      [(2, [], [("path", "os")])] := rfl

/-- C4, confirmed.  For every parsed file (with the span sanity CPython
guarantees for parsed nodes: `1 ≤ lineno ≤ end_lineno ≤ line count`),
every chunk satisfies `start_line ≤ end_line` and its `code` field is
exactly the verbatim join of the source lines `start_line` through
`end_line`, 1-based inclusive. -/
theorem c4_code_matches_lines (fp : String) (L : List String) (b : Block)
    (hw : wfBlock L.length b = true) :
    ∀ c ∈ processFile fp L b,
      c.start_line ≤ c.end_line ∧ c.code = linesRange L c.start_line c.end_line := by
  intro c hc
  obtain ⟨c0, h0, hceq⟩ := processFile_mem fp L b c hc
  have hord := visitBlock_chunks_ord L.length b (initState fp L) hw
    (by simp [initState]) c0 h0
  rcases visitBlock_chunks_mem b (initState fp L) c0 h0 with h | h
  · simp [initState] at h
  · obtain ⟨_, _, _, _, hcode⟩ := h
    rw [hceq]
    exact ⟨hord, hcode⟩

/-- C4, witness: the theorem applied to the end-to-end example file and
its first chunk (`class A`, lines 1-3). -/
theorem c4_witness :
    wfBlock linesE.length bodyE = true ∧
    ((processFile "app.py" linesE bodyE).head!.start_line ≤
        (processFile "app.py" linesE bodyE).head!.end_line ∧
      (processFile "app.py" linesE bodyE).head!.code =
        linesRange linesE (processFile "app.py" linesE bodyE).head!.start_line
          (processFile "app.py" linesE bodyE).head!.end_line) :=
  ⟨by decide, c4_code_matches_lines "app.py" linesE bodyE (by decide) _
    (List.head!_mem_self (by intro h; exact absurd (congrArg List.length h) (by decide)))⟩

/-- C5, counterexample.  The method chunk of the end-to-end example
(`def m` inside `class A`) has `name = "m"`, not a class-qualified name:
the enclosing class name `A` does not occur in the stored name in any
form, it only sits in the separate `class` field. -/
theorem c5_counterexample :
    ((extract_chunks_from_repo repoE).get? 1).map Chunk.name = some "m" ∧
    ((extract_chunks_from_repo repoE).get? 1).map Chunk.type = some "method" ∧
    ((extract_chunks_from_repo repoE).get? 1).map Chunk.class_ = some (some "A") ∧
    strContains "A" "m" = false := ⟨rfl, rfl, rfl, rfl⟩

/-- C5, amended.  `name` is the bare identifier for every chunk kind;
the enclosing class is recorded separately in the `class` field — for a
method the enclosing class name, for a class chunk its own name (since
`visit_ClassDef` sets `current_class` before creating the chunk), and
`None` for a top-level function. -/
theorem c5_bare_names_class_separate :
    (extract_chunks_from_repo repoE).map (fun c => (c.name, c.type, c.class_)) =
      [("A", "class", some "A"), ("m", "method", some "A"), ("helper", "function", none)] := rfl

/-- C6, counterexample.  A class whose body contains the call expression
`helper()` produces a class chunk with an empty `calls` field even
though `_extract_calls` on the very same subtree would find the call:
`visit_ClassDef` simply never invokes the call extractor. -/
theorem c6_counterexample :
    (processFile "c.py" linesCls bodyCls).map (fun c => (c.type, c.calls)) = [("class", [])] ∧
    walkCallsStmt nodeCls = [Callee.name "helper"] := ⟨rfl, rfl⟩

/-- C6, amended.  The Call Reference Extractor runs only on
function/method chunk-creation events; `visit_ClassDef` passes no
`calls` argument, so every class-type chunk of every run carries an
empty `calls` field, whatever call expressions its body contains. -/
theorem c6_class_chunks_no_calls (fp : String) (L : List String) (b : Block) :
    ∀ c ∈ processFile fp L b, c.type = "class" → c.calls = [] := by
  intro c hc hty
  obtain ⟨c0, h0, hceq⟩ := processFile_mem fp L b c hc
  rcases visitBlock_chunks_mem b (initState fp L) c0 h0 with h | h
  · simp [initState] at h
  · obtain ⟨_, _, _, hcls, _⟩ := h
    rw [hceq]
    rw [hceq] at hty
    exact hcls hty

/-- C6, witness: the amended theorem applied to the class-level-call
file and its class chunk. -/
theorem c6_witness : (processFile "c.py" linesCls bodyCls).head!.calls = [] :=
  c6_class_chunks_no_calls "c.py" linesCls bodyCls _
    (List.head!_mem_self (by intro h; exact absurd (congrArg List.length h) (by decide)))
    (by decide)

/-- C7, counterexample.  Appending a failing file to a run leaves the
run's result bit-for-bit identical, while the number of files skipped
for read/parse failures (the count the claim says the run increments and
records) differs between the two runs — so the run result retains no
skipped-file count and no reason: the failure is completely silent. -/
theorem c7_counterexample :
    extract_chunks_from_repo [goodFile, badFile] = extract_chunks_from_repo [goodFile] ∧
    specSkippedFileCount [goodFile, badFile] = 1 ∧
    specSkippedFileCount [goodFile] = 0 := ⟨rfl, rfl, rfl⟩

/-- C7, amended.  A file whose read or parse fails contributes zero
chunks, no partial chunks are emitted for it, and every other file's
chunks are unaffected — removing the failing file from the walk changes
nothing in the result; but the skip is silent, with no count and no
recorded reason. -/
theorem c7_failed_file_silent (l1 l2 : List PyFile) (f : PyFile) (hf : f.parsed = none) :
    extract_chunks_from_repo (l1 ++ f :: l2) = extract_chunks_from_repo (l1 ++ l2) := by
  simp only [extract_chunks_from_repo, List.foldl_append, List.foldl_cons]
  by_cases h : excludedFile f = true <;> simp [h, hf]

/-- C7, witness: the amended theorem applied to a run of one good file
plus one failing file. -/
theorem c7_witness :
    badFile.parsed = none ∧
    extract_chunks_from_repo ([goodFile] ++ badFile :: []) =
      extract_chunks_from_repo ([goodFile] ++ []) :=
  ⟨rfl, c7_failed_file_silent [goodFile] [] badFile rfl⟩

/-- C8, confirmed.  Inside a chunk's subtree, under the import-symbol
mapping current at extraction time: every call through a bare identifier
that is a key of the mapping yields a reference with
`resolved_via = "import"` and the origin module recorded; every call
through a bare identifier that is not a key yields
`resolved_via = "local_or_unknown"` with no module; and every call
through attribute access yields a reference whose name is the full
dotted path with `resolved_via = "attribute"`. -/
theorem c8_call_reference_kinds (syms : List (String × String)) (s : Stmt) :
    (∀ id : String, Callee.name id ∈ walkCallsStmt s →
      (∀ m, lookupStr syms id = some m →
        ({ name := id, resolved_via := "import", module := some m } : CallRef) ∈
          extractCalls syms s) ∧
      (lookupStr syms id = none →
        ({ name := id, resolved_via := "local_or_unknown", module := none } : CallRef) ∈
          extractCalls syms s)) ∧
    (∀ d : String, Callee.attr d ∈ walkCallsStmt s →
      ({ name := d, resolved_via := "attribute", module := none } : CallRef) ∈
        extractCalls syms s) := by
  constructor
  · intro id hid
    constructor
    · intro m hm
      refine List.mem_filterMap.mpr ⟨Callee.name id, hid, ?_⟩
      simp [refOfCallee, hm]
    · intro hm
      refine List.mem_filterMap.mpr ⟨Callee.name id, hid, ?_⟩
      simp [refOfCallee, hm]
  · intro d hd
    exact List.mem_filterMap.mpr ⟨Callee.attr d, hd, rfl⟩

/-- C8, witness: the theorem applied to a statement with three call
sites — the imported `path`, the unknown `g`, and the attribute call
`obj.run` — under the mapping left by `from os import path`. -/
theorem c8_witness :
    ({ name := "path", resolved_via := "import", module := some "os" } : CallRef) ∈
      extractCalls syms0 stmt0 ∧
    ({ name := "g", resolved_via := "local_or_unknown", module := none } : CallRef) ∈
      extractCalls syms0 stmt0 ∧
    ({ name := "obj.run", resolved_via := "attribute", module := none } : CallRef) ∈
      extractCalls syms0 stmt0 :=
  ⟨((c8_call_reference_kinds syms0 stmt0).1 "path" (by decide)).1 "os" (by decide),
   ((c8_call_reference_kinds syms0 stmt0).1 "g" (by decide)).2 (by decide),
   (c8_call_reference_kinds syms0 stmt0).2 "obj.run" (by decide)⟩

/-- C9, confirmed.  Invoking `search` while `self.index is None` — i.e.
before the index has been built or loaded — raises
`RuntimeError("Index not built")` for every query and `k`; in that state
it can never return a result list, empty or otherwise. -/
theorem c9_search_requires_index (e : CodeEmbedder) (q : String) (k : Nat)
    (h : e.index = none) :
    CodeEmbedder.search e q k = Except.error "Index not built" ∧
    ∀ rs : List SearchResult, CodeEmbedder.search e q k ≠ Except.ok rs := by
  have he : CodeEmbedder.search e q k = Except.error "Index not built" := by
    simp [CodeEmbedder.search, h]
  refine ⟨he, ?_⟩
  intro rs hok
  rw [he] at hok
  exact Except.noConfusion hok

/-- C9, witness: the theorem applied to a freshly constructed embedder
with no persisted index. -/
theorem c9_witness :
    CodeEmbedder.search emb0 "where is the token verified" 5 = Except.error "Index not built" ∧
    ∀ rs : List SearchResult,
      CodeEmbedder.search emb0 "where is the token verified" 5 ≠ Except.ok rs :=
  c9_search_requires_index emb0 "where is the token verified" 5 rfl

/-- C10, confirmed.  For every input file the number of chunks equals
`countDefsBlock`, which counts exactly the class definitions and the
plain (synchronous) function definitions at every nesting depth —
crossing into `async def` bodies but assigning the `async def` node
itself zero: an async function definition produces no chunk of its own
while the definitions nested inside it are still extracted. -/
theorem c10_only_sync_defs_chunked (fp : String) (L : List String) (b : Block) :
    (processFile fp L b).length = countDefsBlock b := by
  simp only [processFile, List.length_map]
  rw [visitBlock_chunks_len b]
  simp [initState]
